import Mathlib

/-!
Shallow embedding of the RIE raw-photo editor (src/ClassRawEdit.py).

Sample values are modelled as exact rationals: the Python code works on
float32 buffers in [0,1], and the spec states its properties up to
floating-point tolerance, so the idealized real-number semantics is the
object of verification.  The OpenCV color conversions used by
apply_adjustments (COLOR_RGB2BGR, COLOR_BGR2HSV, COLOR_HSV2BGR,
COLOR_BGR2RGB) are embedded from the float paths of OpenCV
(modules/imgproc color_hsv), with the FLT_EPSILON division guards
idealized to exact zero tests.

The exposure slider value e enters apply_adjustments only through the
multiplier exposure_mult = 2.0 ** e (line 66 of the source); since 2^e is
irrational for non-integer e, the embedding takes this multiplier as the
parameter.  exposure = 0 corresponds to exposure_mult = 1, exposure = ±1
(the ends of the slider range) to 2 and 1/2.
-/

namespace RIE

/-- np.clip(x, 0.0, 1.0) on one sample. -/
def clamp01 (x : ℚ) : ℚ := max 0 (min 1 x)

/-- An RGB pixel of a float image, fields in the natural r, g, b order. -/
structure Pixel where
  r : ℚ
  g : ℚ
  b : ℚ
deriving DecidableEq

/-- A pixel in OpenCV BGR channel layout: channel c0 holds blue, c2 red. -/
structure Bgr where
  c0 : ℚ
  c1 : ℚ
  c2 : ℚ
deriving DecidableEq

/-- An HSV pixel as produced by the OpenCV float conversion:
h in [0, 360), s and v in [0, 1] for inputs in [0, 1]. -/
structure Hsv where
  h : ℚ
  s : ℚ
  v : ℚ
deriving DecidableEq

/-- cv2.cvtColor(-, cv2.COLOR_RGB2BGR): reverse the channel order. -/
def cvtRGB2BGR (p : Pixel) : Bgr := ⟨p.b, p.g, p.r⟩

/-- cv2.cvtColor(-, cv2.COLOR_BGR2RGB): reverse the channel order back. -/
def cvtBGR2RGB (q : Bgr) : Pixel := ⟨q.c2, q.c1, q.c0⟩

/-- Maximum channel value of a pixel (the V of HSV). -/
def vMax (r g b : ℚ) : ℚ := max r (max g b)

/-- Minimum channel value of a pixel. -/
def vMin (r g b : ℚ) : ℚ := min r (min g b)

/-- Saturation of the OpenCV float RGB→HSV conversion:
(max - min)/max, with the FLT_EPSILON guard idealized to an exact test,
so 0 when the maximum is 0. -/
def satOf (r g b : ℚ) : ℚ :=
  if vMax r g b = 0 then 0 else (vMax r g b - vMin r g b) / vMax r g b

/-- Unwrapped hue of the OpenCV float RGB→HSV conversion, in degrees:
0 for gray pixels (where the epsilon-guarded division has numerator 0),
otherwise chosen by the channel attaining the maximum, red checked
first, then green, then blue. -/
def hue0Of (r g b : ℚ) : ℚ :=
  if vMax r g b - vMin r g b = 0 then 0
  else if vMax r g b = r then 60 * (g - b) / (vMax r g b - vMin r g b)
  else if vMax r g b = g then 120 + 60 * (b - r) / (vMax r g b - vMin r g b)
  else 240 + 60 * (r - g) / (vMax r g b - vMin r g b)

/-- Core of the OpenCV float RGB→HSV conversion (RGB2HSV_f): negative
hues are wrapped into [0, 360) by one turn. -/
def rgb2hsvCore (r g b : ℚ) : Hsv :=
  ⟨if hue0Of r g b < 0 then hue0Of r g b + 360 else hue0Of r g b,
   satOf r g b, vMax r g b⟩

/-- cv2.cvtColor(-, cv2.COLOR_BGR2HSV) on a float BGR pixel: the red
channel is read from index 2, blue from index 0. -/
def cvtBGR2HSV (q : Bgr) : Hsv := rgb2hsvCore q.c2 q.c1 q.c0

/-- Sector decomposition of a hue for the OpenCV float HSV→RGB
conversion: the hue is scaled to [0, 6), wrapped once by ±6 if needed,
split into the integer sector and its fractional part; a sector still
out of range after the single wrap is collapsed to sector 0 with
fraction 0 (the `(unsigned)sector >= 6` guard of the C code). -/
def wrap6 (x : ℚ) : ℚ := if x < 0 then x + 6 else if 6 ≤ x then x - 6 else x

def hueSector (h : ℚ) : ℤ × ℚ :=
  if 0 ≤ ⌊wrap6 (h / 60)⌋ ∧ ⌊wrap6 (h / 60)⌋ < 6
  then (⌊wrap6 (h / 60)⌋, wrap6 (h / 60) - ⌊wrap6 (h / 60)⌋)
  else (0, 0)

/-- The HSV2RGB_f sector table (tab[0] = v, tab[1] = v(1-s),
tab[2] = v(1-sf), tab[3] = v(1-s(1-f))) read out through sector_data in
b, g, r channel order. -/
def bgrOfSector (s v : ℚ) (sec : ℤ) (f : ℚ) : Bgr :=
  if sec = 0 then ⟨v * (1 - s), v * (1 - s * (1 - f)), v⟩
  else if sec = 1 then ⟨v * (1 - s), v, v * (1 - s * f)⟩
  else if sec = 2 then ⟨v * (1 - s * (1 - f)), v, v * (1 - s)⟩
  else if sec = 3 then ⟨v, v * (1 - s * f), v * (1 - s)⟩
  else if sec = 4 then ⟨v, v * (1 - s), v * (1 - s * (1 - f))⟩
  else ⟨v * (1 - s * f), v * (1 - s), v⟩

/-- The same sector table read out in r, g, b channel order. -/
def rgbOfSector (s v : ℚ) (sec : ℤ) (f : ℚ) : Pixel :=
  if sec = 0 then ⟨v, v * (1 - s * (1 - f)), v * (1 - s)⟩
  else if sec = 1 then ⟨v * (1 - s * f), v, v * (1 - s)⟩
  else if sec = 2 then ⟨v * (1 - s), v, v * (1 - s * (1 - f))⟩
  else if sec = 3 then ⟨v * (1 - s), v * (1 - s * f), v⟩
  else if sec = 4 then ⟨v * (1 - s * (1 - f)), v * (1 - s), v⟩
  else ⟨v, v * (1 - s), v * (1 - s * f)⟩

/-- cv2.cvtColor(-, cv2.COLOR_HSV2BGR), float path (HSV2RGB_f with
bidx = 0): at s = 0 every table entry equals v, giving gray; otherwise
the sector table indexed by the hue sector. -/
def cvtHSV2BGR (c : Hsv) : Bgr :=
  if c.s = 0 then ⟨c.v, c.v, c.v⟩
  else bgrOfSector c.s c.v (hueSector c.h).1 (hueSector c.h).2

/-- The same OpenCV float HSV→RGB conversion producing r, g, b order,
the form in which the spec states steps (2) and (5). -/
def hsv2rgbCore (c : Hsv) : Pixel :=
  if c.s = 0 then ⟨c.v, c.v, c.v⟩
  else rgbOfSector c.s c.v (hueSector c.h).1 (hueSector c.h).2

/-- apply_adjustments (src/ClassRawEdit.py lines 60-85) acting on one
pixel: multiply by the exposure multiplier and clamp, convert to HSV via
the RGB→BGR→HSV path, scale saturation proportionally and clamp, apply
the vibrance boost and clamp, convert back via HSV→BGR→RGB, clamp. -/
def applyPixel (em sat vib : ℚ) (p : Pixel) : Pixel :=
  let p1 : Pixel := ⟨clamp01 (p.r * em), clamp01 (p.g * em), clamp01 (p.b * em)⟩
  let hsv := cvtBGR2HSV (cvtRGB2BGR p1)
  let s1 := clamp01 (hsv.s + hsv.s * sat)
  let s2 := clamp01 (s1 + s1 * vib * (1 - s1))
  let p2 := cvtBGR2RGB (cvtHSV2BGR ⟨hsv.h, s2, hsv.v⟩)
  ⟨clamp01 p2.r, clamp01 p2.g, clamp01 p2.b⟩

/-- A float image as a list of rows of pixels. -/
abbrev Image := List (List Pixel)

/-- apply_adjustments from src/ClassRawEdit.py: every numpy/cv2 step of
the function is a per-pixel map, so the whole function is the pixel
transform mapped over the buffer. -/
def apply_adjustments (img : Image) (em sat vib : ℚ) : Image :=
  img.map fun row => row.map (applyPixel em sat vib)

/-! ### The pipeline as the spec words it (for the refinement claim C1) -/

/-- The five-step pipeline exactly as §4.1 of the spec states it:
(1) multiply every sample by the exposure multiplier and clamp,
(2) convert the clamped RGB pixel to HSV,
(3) scale saturation proportionally and clamp,
(4) apply the vibrance boost to the post-saturation value and clamp,
(5) convert back to RGB and clamp.  The color conversions act on RGB
directly, with no BGR detour. -/
def specApplyPixel (em sat vib : ℚ) (p : Pixel) : Pixel :=
  let p1 : Pixel := ⟨clamp01 (p.r * em), clamp01 (p.g * em), clamp01 (p.b * em)⟩
  let hsv := rgb2hsvCore p1.r p1.g p1.b
  let s1 := clamp01 (hsv.s + hsv.s * sat)
  let s2 := clamp01 (s1 + s1 * vib * (1 - s1))
  let p2 := hsv2rgbCore ⟨hsv.h, s2, hsv.v⟩
  ⟨clamp01 p2.r, clamp01 p2.g, clamp01 p2.b⟩

/-- The spec pipeline on a whole buffer. -/
def specApply (img : Image) (em sat vib : ℚ) : Image :=
  img.map fun row => row.map (specApplyPixel em sat vib)

/-! ### Basic lemmas -/

theorem clamp01_nonneg (x : ℚ) : 0 ≤ clamp01 x := le_max_left 0 _

theorem clamp01_le_one (x : ℚ) : clamp01 x ≤ 1 := by
  unfold clamp01
  rcases le_total x 1 with h | h
  · simp [min_eq_right h, h]
  · simp [min_eq_left h]

theorem clamp01_eq_self {x : ℚ} (h0 : 0 ≤ x) (h1 : x ≤ 1) : clamp01 x = x := by
  unfold clamp01
  rw [min_eq_right h1, max_eq_right h0]

theorem cvtBGR2RGB_bgrOfSector (s v : ℚ) (sec : ℤ) (f : ℚ) :
    cvtBGR2RGB (bgrOfSector s v sec f) = rgbOfSector s v sec f := by
  unfold cvtBGR2RGB bgrOfSector rgbOfSector
  split_ifs <;> rfl

/-- Undoing the BGR detour: converting HSV to BGR and then reversing the
channels is the direct HSV to RGB conversion. -/
theorem cvtBGR2RGB_cvtHSV2BGR (c : Hsv) :
    cvtBGR2RGB (cvtHSV2BGR c) = hsv2rgbCore c := by
  unfold cvtHSV2BGR hsv2rgbCore
  by_cases hs : c.s = 0
  · rw [if_pos hs, if_pos hs]; rfl
  · rw [if_neg hs, if_neg hs, cvtBGR2RGB_bgrOfSector]

/-- The other direction of the detour: reversing the channels and then
converting BGR to HSV is the direct RGB to HSV conversion. -/
theorem cvtBGR2HSV_cvtRGB2BGR (p : Pixel) :
    cvtBGR2HSV (cvtRGB2BGR p) = rgb2hsvCore p.r p.g p.b := rfl

theorem applyPixel_eq_specApplyPixel (em sat vib : ℚ) (p : Pixel) :
    applyPixel em sat vib p = specApplyPixel em sat vib p := by
  simp only [applyPixel, specApplyPixel, cvtBGR2HSV_cvtRGB2BGR,
    cvtBGR2RGB_cvtHSV2BGR]

/-! ### Sector analysis of the HSV to RGB conversion -/

theorem wrap6_of_mem {x : ℚ} (h0 : 0 ≤ x) (h6 : x < 6) : wrap6 x = x := by
  unfold wrap6
  rw [if_neg (not_lt.mpr h0), if_neg (not_le.mpr h6)]

theorem floor_nat_add_frac (k : ℕ) {f : ℚ} (hf0 : 0 ≤ f) (hf1 : f < 1) :
    ⌊(k : ℚ) + f⌋ = (k : ℤ) := by
  rw [add_comm, Int.floor_add_nat, Int.floor_eq_zero_iff.mpr ⟨hf0, hf1⟩,
    zero_add]

theorem hueSector_exact (k : ℕ) (hk : k < 6) {f : ℚ} (hf0 : 0 ≤ f)
    (hf1 : f < 1) : hueSector (60 * ((k : ℚ) + f)) = ((k : ℤ), f) := by
  have hx0 : (0 : ℚ) ≤ (k : ℚ) + f := add_nonneg (Nat.cast_nonneg k) hf0
  have hk5 : (k : ℚ) ≤ 5 := by exact_mod_cast Nat.lt_succ_iff.mp hk
  have hx6 : (k : ℚ) + f < 6 := by linarith
  have hdiv : (60 : ℚ) * ((k : ℚ) + f) / 60 = (k : ℚ) + f := by ring
  unfold hueSector
  rw [hdiv, wrap6_of_mem hx0 hx6, floor_nat_add_frac k hf0 hf1]
  rw [if_pos ⟨Int.ofNat_nonneg k, by exact_mod_cast hk⟩]
  have : ((k : ℤ) : ℚ) = (k : ℚ) := by push_cast; rfl
  rw [this]
  congr 1
  ring

/-- The HSV to RGB conversion on a hue presented as sector plus
fraction. -/
theorem hsv2rgbCore_sec (k : ℕ) (hk : k < 6) {f s v : ℚ} (hs : ¬ s = 0)
    (hf0 : 0 ≤ f) (hf1 : f < 1) :
    hsv2rgbCore ⟨60 * ((k : ℚ) + f), s, v⟩ = rgbOfSector s v (k : ℤ) f := by
  show (if s = 0 then (⟨v, v, v⟩ : Pixel)
    else rgbOfSector s v (hueSector (60 * ((k : ℚ) + f))).1
      (hueSector (60 * ((k : ℚ) + f))).2) = _
  rw [if_neg hs, hueSector_exact k hk hf0 hf1]

/-- The HSV to RGB conversion at zero saturation is gray. -/
theorem hsv2rgbCore_gray (h v : ℚ) : hsv2rgbCore ⟨h, 0, v⟩ = ⟨v, v, v⟩ := by
  show (if (0 : ℚ) = 0 then (⟨v, v, v⟩ : Pixel) else _) = _
  rw [if_pos rfl]

/-! ### Case analysis of the RGB to HSV conversion -/

theorem rgb2hsv_gray (r : ℚ) : rgb2hsvCore r r r = ⟨0, 0, r⟩ := by
  have hvmax : vMax r r r = r := by unfold vMax; rw [max_self, max_self]
  have hvmin : vMin r r r = r := by unfold vMin; rw [min_self, min_self]
  have hhue : hue0Of r r r = 0 := by
    unfold hue0Of
    rw [hvmax, hvmin, if_pos (sub_self r)]
  have hsat : satOf r r r = 0 := by
    unfold satOf
    rw [hvmax, hvmin, sub_self]
    split_ifs <;> simp
  unfold rgb2hsvCore
  rw [hhue, hsat, hvmax, if_neg (lt_irrefl (0 : ℚ))]

/-- Red is the maximum, blue the minimum, not all channels equal. -/
theorem rgb2hsv_vr_bmin {r g b : ℚ} (hb0 : 0 ≤ b) (hgr : g ≤ r)
    (hbg : b ≤ g) (hbr : b < r) :
    rgb2hsvCore r g b = ⟨60 * (g - b) / (r - b), (r - b) / r, r⟩ := by
  have hvmax : vMax r g b = r := by
    unfold vMax; rw [max_eq_left hbg, max_eq_left hgr]
  have hvmin : vMin r g b = b := by
    unfold vMin; rw [min_eq_right hbg, min_eq_right (hbg.trans hgr)]
  have hd : r - b ≠ 0 := sub_ne_zero.mpr (ne_of_gt hbr)
  have hr0 : r ≠ 0 := ne_of_gt (lt_of_le_of_lt hb0 hbr)
  have hhue : hue0Of r g b = 60 * (g - b) / (r - b) := by
    unfold hue0Of
    rw [hvmax, hvmin, if_neg hd, if_pos rfl]
  have hsat : satOf r g b = (r - b) / r := by
    unfold satOf
    rw [hvmax, hvmin, if_neg hr0]
  have hge : ¬ (60 * (g - b) / (r - b) < 0) := by
    push_neg
    exact div_nonneg (by linarith) (by linarith)
  unfold rgb2hsvCore
  rw [hhue, hsat, hvmax, if_neg hge]

/-- Red is the maximum, green the minimum strictly below blue: the raw
hue is negative and wraps by one turn. -/
theorem rgb2hsv_vr_gmin {r g b : ℚ} (hg0 : 0 ≤ g) (hbr : b ≤ r)
    (hgb : g < b) :
    rgb2hsvCore r g b = ⟨60 * (g - b) / (r - g) + 360, (r - g) / r, r⟩ := by
  have hgr : g ≤ r := (hgb.trans_le hbr).le
  have hvmax : vMax r g b = r := by
    unfold vMax; rw [max_eq_right hgb.le, max_eq_left hbr]
  have hvmin : vMin r g b = g := by
    unfold vMin; rw [min_eq_left hgb.le, min_eq_right hgr]
  have hgr' : g < r := hgb.trans_le hbr
  have hd : r - g ≠ 0 := sub_ne_zero.mpr (ne_of_gt hgr')
  have hr0 : r ≠ 0 := ne_of_gt (lt_of_le_of_lt hg0 hgr')
  have hhue : hue0Of r g b = 60 * (g - b) / (r - g) := by
    unfold hue0Of
    rw [hvmax, hvmin, if_neg hd, if_pos rfl]
  have hsat : satOf r g b = (r - g) / r := by
    unfold satOf
    rw [hvmax, hvmin, if_neg hr0]
  have hneg : 60 * (g - b) / (r - g) < 0 :=
    div_neg_of_neg_of_pos (by linarith) (by linarith)
  unfold rgb2hsvCore
  rw [hhue, hsat, hvmax, if_pos hneg]

/-- Green is strictly the maximum, red the minimum. -/
theorem rgb2hsv_vg_rmin {r g b : ℚ} (hr0 : 0 ≤ r) (hrg : r < g)
    (hbg : b ≤ g) (hrb : r ≤ b) :
    rgb2hsvCore r g b
      = ⟨120 + 60 * (b - r) / (g - r), (g - r) / g, g⟩ := by
  have hvmax : vMax r g b = g := by
    unfold vMax; rw [max_eq_left hbg, max_eq_right hrg.le]
  have hvmin : vMin r g b = r := by
    unfold vMin; rw [min_eq_right hbg, min_eq_left hrb]
  have hd : g - r ≠ 0 := sub_ne_zero.mpr (ne_of_gt hrg)
  have hg0 : g ≠ 0 := ne_of_gt (lt_of_le_of_lt hr0 hrg)
  have hhue : hue0Of r g b = 120 + 60 * (b - r) / (g - r) := by
    unfold hue0Of
    rw [hvmax, hvmin, if_neg hd, if_neg (ne_of_gt hrg), if_pos rfl]
  have hsat : satOf r g b = (g - r) / g := by
    unfold satOf
    rw [hvmax, hvmin, if_neg hg0]
  have hge : ¬ (120 + 60 * (b - r) / (g - r) < 0) := by
    push_neg
    have : 0 ≤ 60 * (b - r) / (g - r) :=
      div_nonneg (by linarith) (by linarith)
    linarith
  unfold rgb2hsvCore
  rw [hhue, hsat, hvmax, if_neg hge]

/-- Green is strictly the maximum, blue the minimum strictly below
red. -/
theorem rgb2hsv_vg_bmin {r g b : ℚ} (hb0 : 0 ≤ b) (hbr : b < r)
    (hrg : r < g) :
    rgb2hsvCore r g b
      = ⟨120 + 60 * (b - r) / (g - b), (g - b) / g, g⟩ := by
  have hbg : b < g := hbr.trans hrg
  have hvmax : vMax r g b = g := by
    unfold vMax; rw [max_eq_left hbg.le, max_eq_right hrg.le]
  have hvmin : vMin r g b = b := by
    unfold vMin; rw [min_eq_right hbg.le, min_eq_right hbr.le]
  have hd : g - b ≠ 0 := sub_ne_zero.mpr (ne_of_gt hbg)
  have hg0 : g ≠ 0 := ne_of_gt (lt_of_le_of_lt hb0 hbg)
  have hhue : hue0Of r g b = 120 + 60 * (b - r) / (g - b) := by
    unfold hue0Of
    rw [hvmax, hvmin, if_neg hd, if_neg (ne_of_gt hrg), if_pos rfl]
  have hsat : satOf r g b = (g - b) / g := by
    unfold satOf
    rw [hvmax, hvmin, if_neg hg0]
  have hge : ¬ (120 + 60 * (b - r) / (g - b) < 0) := by
    push_neg
    have h1 : (-1 : ℚ) ≤ (b - r) / (g - b) := by
      rw [le_div_iff₀ (by linarith : (0 : ℚ) < g - b)]
      linarith
    have h2 : (-60 : ℚ) ≤ 60 * ((b - r) / (g - b)) := by linarith
    calc (0 : ℚ) ≤ 120 + 60 * ((b - r) / (g - b)) := by linarith
    _ = 120 + 60 * (b - r) / (g - b) := by ring
  unfold rgb2hsvCore
  rw [hhue, hsat, hvmax, if_neg hge]

/-- Blue is strictly the maximum, green the minimum. -/
theorem rgb2hsv_vb_gmin {r g b : ℚ} (hg0 : 0 ≤ g) (hgr : g ≤ r)
    (hrb : r < b) :
    rgb2hsvCore r g b
      = ⟨240 + 60 * (r - g) / (b - g), (b - g) / b, b⟩ := by
  have hgb : g < b := hgr.trans_lt hrb
  have hvmax : vMax r g b = b := by
    unfold vMax; rw [max_eq_right hgb.le, max_eq_right hrb.le]
  have hvmin : vMin r g b = g := by
    unfold vMin; rw [min_eq_left hgb.le, min_eq_right hgr]
  have hd : b - g ≠ 0 := sub_ne_zero.mpr (ne_of_gt hgb)
  have hb0 : b ≠ 0 := ne_of_gt (lt_of_le_of_lt hg0 hgb)
  have hhue : hue0Of r g b = 240 + 60 * (r - g) / (b - g) := by
    unfold hue0Of
    rw [hvmax, hvmin, if_neg hd, if_neg (ne_of_gt hrb),
      if_neg (ne_of_gt hgb)]
  have hsat : satOf r g b = (b - g) / b := by
    unfold satOf
    rw [hvmax, hvmin, if_neg hb0]
  have hge : ¬ (240 + 60 * (r - g) / (b - g) < 0) := by
    push_neg
    have : 0 ≤ 60 * (r - g) / (b - g) :=
      div_nonneg (by linarith) (by linarith)
    linarith
  unfold rgb2hsvCore
  rw [hhue, hsat, hvmax, if_neg hge]

/-- Blue is strictly the maximum, red the minimum strictly below
green. -/
theorem rgb2hsv_vb_rmin {r g b : ℚ} (hr0 : 0 ≤ r) (hrg : r < g)
    (hgb : g < b) :
    rgb2hsvCore r g b
      = ⟨240 + 60 * (r - g) / (b - r), (b - r) / b, b⟩ := by
  have hrb : r < b := hrg.trans hgb
  have hvmax : vMax r g b = b := by
    unfold vMax; rw [max_eq_right hgb.le, max_eq_right hrb.le]
  have hvmin : vMin r g b = r := by
    unfold vMin; rw [min_eq_left hgb.le, min_eq_left hrg.le]
  have hd : b - r ≠ 0 := sub_ne_zero.mpr (ne_of_gt hrb)
  have hb0 : b ≠ 0 := ne_of_gt (lt_of_le_of_lt hr0 hrb)
  have hhue : hue0Of r g b = 240 + 60 * (r - g) / (b - r) := by
    unfold hue0Of
    rw [hvmax, hvmin, if_neg hd, if_neg (ne_of_gt hrb),
      if_neg (ne_of_gt hgb)]
  have hsat : satOf r g b = (b - r) / b := by
    unfold satOf
    rw [hvmax, hvmin, if_neg hb0]
  have hge : ¬ (240 + 60 * (r - g) / (b - r) < 0) := by
    push_neg
    have h1 : (-1 : ℚ) ≤ (r - g) / (b - r) := by
      rw [le_div_iff₀ (by linarith : (0 : ℚ) < b - r)]
      linarith
    have h2 : (-60 : ℚ) ≤ 60 * ((r - g) / (b - r)) := by linarith
    calc (0 : ℚ) ≤ 240 + 60 * ((r - g) / (b - r)) := by linarith
    _ = 240 + 60 * (r - g) / (b - r) := by ring
  unfold rgb2hsvCore
  rw [hhue, hsat, hvmax, if_neg hge]

end RIE

namespace RIE

theorem rgbOfSector_c0 (s v f : ℚ) :
    rgbOfSector s v ((0 : ℕ) : ℤ) f
      = ⟨v, v * (1 - s * (1 - f)), v * (1 - s)⟩ := by
  norm_num [rgbOfSector]

theorem rgbOfSector_c1 (s v f : ℚ) :
    rgbOfSector s v ((1 : ℕ) : ℤ) f
      = ⟨v * (1 - s * f), v, v * (1 - s)⟩ := by
  norm_num [rgbOfSector]

theorem rgbOfSector_c2 (s v f : ℚ) :
    rgbOfSector s v ((2 : ℕ) : ℤ) f
      = ⟨v * (1 - s), v, v * (1 - s * (1 - f))⟩ := by
  norm_num [rgbOfSector]

theorem rgbOfSector_c3 (s v f : ℚ) :
    rgbOfSector s v ((3 : ℕ) : ℤ) f
      = ⟨v * (1 - s), v * (1 - s * f), v⟩ := by
  norm_num [rgbOfSector]

theorem rgbOfSector_c4 (s v f : ℚ) :
    rgbOfSector s v ((4 : ℕ) : ℤ) f
      = ⟨v * (1 - s * (1 - f)), v * (1 - s), v⟩ := by
  norm_num [rgbOfSector]

theorem rgbOfSector_c5 (s v f : ℚ) :
    rgbOfSector s v ((5 : ℕ) : ℤ) f
      = ⟨v, v * (1 - s), v * (1 - s * f)⟩ := by
  norm_num [rgbOfSector]

/-- Converting a pixel with nonnegative channels to HSV and back is the
identity. -/
theorem hsv_round_trip {r g b : ℚ} (hr : 0 ≤ r) (hg : 0 ≤ g)
    (hb : 0 ≤ b) : hsv2rgbCore (rgb2hsvCore r g b) = ⟨r, g, b⟩ := by
  rcases le_or_lt g r with hgr | hrg
  · rcases le_or_lt b r with hbr | hrb
    · rcases le_or_lt b g with hbg | hgb
      · -- b ≤ g ≤ r: red the maximum, blue the minimum
        rcases eq_or_lt_of_le hbr with heq | hlt
        · -- all three channels are equal
          have hgr2 : g = r := le_antisymm hgr (heq ▸ hbg)
          rw [heq, hgr2, rgb2hsv_gray, hsv2rgbCore_gray]
        · -- b < r
          rw [rgb2hsv_vr_bmin hb hgr hbg hlt]
          have hr0 : (0 : ℚ) < r := lt_of_le_of_lt hb hlt
          have hd : (0 : ℚ) < r - b := by linarith
          have hr' : r ≠ 0 := ne_of_gt hr0
          have hd' : r - b ≠ 0 := ne_of_gt hd
          have hs : ¬ (r - b) / r = 0 := div_ne_zero hd' hr'
          rcases eq_or_lt_of_le hgr with hgr1 | hgr1
          · -- g = r: the hue lands exactly on sector 1
            subst hgr1
            rw [show (60 : ℚ) * (g - b) / (g - b)
                  = 60 * ((↑(1 : ℕ) : ℚ) + 0) by
                rw [mul_div_assoc, div_self hd']; push_cast; ring]
            rw [hsv2rgbCore_sec 1 (by norm_num) hs le_rfl zero_lt_one,
              rgbOfSector_c1, Pixel.mk.injEq]
            refine ⟨by field_simp, rfl, by field_simp⟩
          · -- g < r: sector 0
            have hf0 : 0 ≤ (g - b) / (r - b) :=
              div_nonneg (by linarith) hd.le
            have hf1 : (g - b) / (r - b) < 1 :=
              (div_lt_one hd).mpr (by linarith)
            rw [show (60 : ℚ) * (g - b) / (r - b)
                  = 60 * ((↑(0 : ℕ) : ℚ) + (g - b) / (r - b)) by
                push_cast; ring]
            rw [hsv2rgbCore_sec 0 (by norm_num) hs hf0 hf1,
              rgbOfSector_c0, Pixel.mk.injEq]
            refine ⟨rfl, ?_, by field_simp⟩
            field_simp
            ring
      · -- g < b ≤ r: red the maximum, wrapped hue, sector 5
        rw [rgb2hsv_vr_gmin hg hbr hgb]
        have hgr1 : g < r := hgb.trans_le hbr
        have hr0 : (0 : ℚ) < r := lt_of_le_of_lt hg hgr1
        have hd : (0 : ℚ) < r - g := by linarith
        have hr' : r ≠ 0 := ne_of_gt hr0
        have hd' : r - g ≠ 0 := ne_of_gt hd
        have hs : ¬ (r - g) / r = 0 := div_ne_zero hd' hr'
        have hf0 : 0 ≤ (r - b) / (r - g) := div_nonneg (by linarith) hd.le
        have hf1 : (r - b) / (r - g) < 1 :=
          (div_lt_one hd).mpr (by linarith)
        rw [show (60 : ℚ) * (g - b) / (r - g) + 360
              = 60 * ((↑(5 : ℕ) : ℚ) + (r - b) / (r - g)) by
            field_simp; ring]
        rw [hsv2rgbCore_sec 5 (by norm_num) hs hf0 hf1,
          rgbOfSector_c5, Pixel.mk.injEq]
        refine ⟨rfl, by field_simp, ?_⟩
        field_simp
        ring
    · -- g ≤ r < b: blue strictly the maximum, green the minimum
      rw [rgb2hsv_vb_gmin hg hgr hrb]
      have hgb : g < b := hgr.trans_lt hrb
      have hb0 : (0 : ℚ) < b := lt_of_le_of_lt hg hgb
      have hd : (0 : ℚ) < b - g := by linarith
      have hb' : b ≠ 0 := ne_of_gt hb0
      have hd' : b - g ≠ 0 := ne_of_gt hd
      have hs : ¬ (b - g) / b = 0 := div_ne_zero hd' hb'
      have hf0 : 0 ≤ (r - g) / (b - g) := div_nonneg (by linarith) hd.le
      have hf1 : (r - g) / (b - g) < 1 :=
        (div_lt_one hd).mpr (by linarith)
      rw [show (240 : ℚ) + 60 * (r - g) / (b - g)
            = 60 * ((↑(4 : ℕ) : ℚ) + (r - g) / (b - g)) by
          push_cast; ring]
      rw [hsv2rgbCore_sec 4 (by norm_num) hs hf0 hf1,
        rgbOfSector_c4, Pixel.mk.injEq]
      refine ⟨?_, by field_simp, rfl⟩
      field_simp
      ring
  · rcases le_or_lt b g with hbg | hgb
    · -- r < g, b ≤ g: green the maximum
      rcases le_or_lt r b with hrb | hbr
      · -- red the minimum
        rw [rgb2hsv_vg_rmin hr hrg hbg hrb]
        have hg0 : (0 : ℚ) < g := lt_of_le_of_lt hr hrg
        have hd : (0 : ℚ) < g - r := by linarith
        have hg' : g ≠ 0 := ne_of_gt hg0
        have hd' : g - r ≠ 0 := ne_of_gt hd
        have hs : ¬ (g - r) / g = 0 := div_ne_zero hd' hg'
        rcases eq_or_lt_of_le hbg with hbg1 | hbg1
        · -- b = g: the hue lands exactly on sector 3
          subst hbg1
          rw [show (120 : ℚ) + 60 * (b - r) / (b - r)
                = 60 * ((↑(3 : ℕ) : ℚ) + 0) by
              rw [mul_div_assoc, div_self hd']; push_cast; ring]
          rw [hsv2rgbCore_sec 3 (by norm_num) hs le_rfl zero_lt_one,
            rgbOfSector_c3, Pixel.mk.injEq]
          refine ⟨by field_simp, by field_simp, rfl⟩
        · -- b < g: sector 2
          have hf0 : 0 ≤ (b - r) / (g - r) :=
            div_nonneg (by linarith) hd.le
          have hf1 : (b - r) / (g - r) < 1 :=
            (div_lt_one hd).mpr (by linarith)
          rw [show (120 : ℚ) + 60 * (b - r) / (g - r)
                = 60 * ((↑(2 : ℕ) : ℚ) + (b - r) / (g - r)) by
              push_cast; ring]
          rw [hsv2rgbCore_sec 2 (by norm_num) hs hf0 hf1,
            rgbOfSector_c2, Pixel.mk.injEq]
          refine ⟨by field_simp, rfl, ?_⟩
          field_simp
          ring
      · -- b < r < g: blue the minimum, sector 1
        rw [rgb2hsv_vg_bmin hb hbr hrg]
        have hbg1 : b < g := hbr.trans hrg
        have hg0 : (0 : ℚ) < g := lt_of_le_of_lt hb hbg1
        have hd : (0 : ℚ) < g - b := by linarith
        have hg' : g ≠ 0 := ne_of_gt hg0
        have hd' : g - b ≠ 0 := ne_of_gt hd
        have hs : ¬ (g - b) / g = 0 := div_ne_zero hd' hg'
        have hf0 : 0 ≤ (g - r) / (g - b) := div_nonneg (by linarith) hd.le
        have hf1 : (g - r) / (g - b) < 1 :=
          (div_lt_one hd).mpr (by linarith)
        rw [show (120 : ℚ) + 60 * (b - r) / (g - b)
              = 60 * ((↑(1 : ℕ) : ℚ) + (g - r) / (g - b)) by
            field_simp; ring]
        rw [hsv2rgbCore_sec 1 (by norm_num) hs hf0 hf1,
          rgbOfSector_c1, Pixel.mk.injEq]
        refine ⟨?_, rfl, by field_simp⟩
        field_simp
        ring
    · -- r < g < b: blue the maximum, red the minimum, sector 3
      rw [rgb2hsv_vb_rmin hr hrg hgb]
      have hrb : r < b := hrg.trans hgb
      have hb0 : (0 : ℚ) < b := lt_of_le_of_lt hr hrb
      have hd : (0 : ℚ) < b - r := by linarith
      have hb' : b ≠ 0 := ne_of_gt hb0
      have hd' : b - r ≠ 0 := ne_of_gt hd
      have hs : ¬ (b - r) / b = 0 := div_ne_zero hd' hb'
      have hf0 : 0 ≤ (b - g) / (b - r) := div_nonneg (by linarith) hd.le
      have hf1 : (b - g) / (b - r) < 1 :=
        (div_lt_one hd).mpr (by linarith)
      rw [show (240 : ℚ) + 60 * (r - g) / (b - r)
            = 60 * ((↑(3 : ℕ) : ℚ) + (b - g) / (b - r)) by
          field_simp; ring]
      rw [hsv2rgbCore_sec 3 (by norm_num) hs hf0 hf1,
        rgbOfSector_c3, Pixel.mk.injEq]
      refine ⟨by field_simp, ?_, rfl⟩
      field_simp
      ring

end RIE

namespace RIE

/-- All channels of a pixel lie in [0, 1]. -/
abbrev PixelIn01 (p : Pixel) : Prop :=
  0 ≤ p.r ∧ p.r ≤ 1 ∧ 0 ≤ p.g ∧ p.g ≤ 1 ∧ 0 ≤ p.b ∧ p.b ≤ 1

/-- Every sample of the buffer lies in [0, 1] (the ImageBuffer data-model
invariant of §3 of the spec). -/
abbrev ValidImage (img : Image) : Prop := ∀ row ∈ img, ∀ p ∈ row, PixelIn01 p

theorem rgb2hsv_s_mem {r g b : ℚ} (hr : 0 ≤ r) (hg : 0 ≤ g) (hb : 0 ≤ b) :
    0 ≤ (rgb2hsvCore r g b).s ∧ (rgb2hsvCore r g b).s ≤ 1 := by
  have hvmin0 : 0 ≤ vMin r g b := le_min hr (le_min hg hb)
  have hminmax : vMin r g b ≤ vMax r g b :=
    le_trans (min_le_left _ _) (le_max_left _ _)
  show 0 ≤ satOf r g b ∧ satOf r g b ≤ 1
  unfold satOf
  split_ifs with hv
  · exact ⟨le_rfl, zero_le_one⟩
  · have hvpos : 0 < vMax r g b :=
      lt_of_le_of_ne (le_trans hvmin0 hminmax) (Ne.symm hv)
    constructor
    · exact div_nonneg (by linarith) hvpos.le
    · rw [div_le_one hvpos]
      linarith

theorem applyPixel_id {p : Pixel} (h : PixelIn01 p) : applyPixel 1 0 0 p = p := by
  obtain ⟨h1, h2, h3, h4, h5, h6⟩ := h
  have hS := rgb2hsv_s_mem h1 h3 h5
  simp only [applyPixel, mul_one, mul_zero, add_zero, zero_mul]
  rw [clamp01_eq_self h1 h2, clamp01_eq_self h3 h4, clamp01_eq_self h5 h6]
  rw [show (⟨p.r, p.g, p.b⟩ : Pixel) = p from rfl]
  rw [cvtBGR2HSV_cvtRGB2BGR]
  rw [clamp01_eq_self hS.1 hS.2, clamp01_eq_self hS.1 hS.2]
  rw [show (⟨(rgb2hsvCore p.r p.g p.b).h, (rgb2hsvCore p.r p.g p.b).s,
        (rgb2hsvCore p.r p.g p.b).v⟩ : Hsv) = rgb2hsvCore p.r p.g p.b
      from rfl]
  rw [cvtBGR2RGB_cvtHSV2BGR, hsv_round_trip h1 h3 h5]
  rw [clamp01_eq_self h1 h2, clamp01_eq_self h3 h4, clamp01_eq_self h5 h6]

theorem list_map_id_of {α : Type} (l : List α) (f : α → α)
    (h : ∀ x ∈ l, f x = x) : l.map f = l := by
  induction l with
  | nil => rfl
  | cons a t ih =>
    simp only [List.map_cons, h a (by simp)]
    rw [ih fun x hx => h x (by simp [hx])]

theorem applyPixel_mem01 (em sat vib : ℚ) (p : Pixel) :
    PixelIn01 (applyPixel em sat vib p) := by
  simp only [applyPixel]
  exact ⟨clamp01_nonneg _, clamp01_le_one _, clamp01_nonneg _,
    clamp01_le_one _, clamp01_nonneg _, clamp01_le_one _⟩

theorem validImage_singleton {p : Pixel} (h : PixelIn01 p) :
    ValidImage [[p]] := by
  intro row hrow q hq
  rw [List.mem_singleton] at hrow
  subst hrow
  rw [List.mem_singleton] at hq
  subst hq
  exact h

end RIE

namespace RIE

/-- C1: apply_adjustments performs exactly the five spec steps in order:
(1) multiply every sample by the exposure multiplier 2^exposure and
clamp to [0,1]; (2) convert the clamped RGB buffer to HSV; (3) per
pixel scale saturation proportionally and clamp; (4) then apply the
vibrance boost to the post-saturation value and clamp; (5) convert HSV
back to RGB and clamp to [0,1].  The source's RGB→BGR→HSV detour yields
the same HSV components as the direct conversion, as the spec allows. -/
theorem apply_adjustments_matches_spec_pipeline (img : Image)
    (em sat vib : ℚ) :
    apply_adjustments img em sat vib = specApply img em sat vib := by
  unfold apply_adjustments specApply
  have h : applyPixel em sat vib = specApplyPixel em sat vib :=
    funext (applyPixel_eq_specApplyPixel em sat vib)
  rw [h]

/-- C2: for every input buffer with samples in [0,1] and parameters in
range (exposure in [-1,1], so multiplier in [1/2,2]; saturation and
vibrance in [-1,1]), every sample of the returned buffer lies in
[0,1]. -/
theorem apply_adjustments_range_invariant (img : Image) (em sat vib : ℚ)
    (himg : ValidImage img) (hem0 : 1/2 ≤ em) (hem1 : em ≤ 2)
    (hs0 : -1 ≤ sat) (hs1 : sat ≤ 1) (hv0 : -1 ≤ vib) (hv1 : vib ≤ 1) :
    ValidImage (apply_adjustments img em sat vib) := by
  intro row hrow p hp
  unfold apply_adjustments at hrow
  rcases List.mem_map.mp hrow with ⟨row0, hrow0, rfl⟩
  rcases List.mem_map.mp hp with ⟨p0, hp0, rfl⟩
  exact applyPixel_mem01 em sat vib p0

/-- Witness for C2 at a concrete buffer and in-range parameters. -/
theorem apply_adjustments_range_invariant_witness :
    ValidImage [[⟨1/2, 1/2, 1/2⟩]] ∧
    ValidImage (apply_adjustments [[⟨1/2, 1/2, 1/2⟩]] 2 1 1) := by
  have hv : ValidImage [[⟨1/2, 1/2, 1/2⟩]] := validImage_singleton
    ⟨by norm_num, by norm_num, by norm_num, by norm_num, by norm_num,
      by norm_num⟩
  exact ⟨hv,
    apply_adjustments_range_invariant _ 2 1 1 hv (by norm_num)
      (by norm_num) (by norm_num) (by norm_num) (by norm_num) (by norm_num)⟩

/-- C3: on a buffer whose samples lie in [0,1] (the ImageBuffer
invariant), apply_adjustments with exposure 0 (multiplier 2^0 = 1),
saturation 0 and vibrance 0 returns the buffer unchanged — and in the
exact rational model it is exactly equal, not merely within
floating-point tolerance. -/
theorem apply_adjustments_identity_at_zero (img : Image)
    (h : ValidImage img) : apply_adjustments img 1 0 0 = img := by
  unfold apply_adjustments
  apply list_map_id_of
  intro row hrow
  apply list_map_id_of
  intro p hp
  exact applyPixel_id (h row hrow p hp)

/-- Witness for C3 at a concrete buffer. -/
theorem apply_adjustments_identity_at_zero_witness :
    ValidImage [[⟨1/2, 1/4, 3/4⟩]] ∧
    apply_adjustments [[⟨1/2, 1/4, 3/4⟩]] 1 0 0 = [[⟨1/2, 1/4, 3/4⟩]] := by
  have hv : ValidImage [[⟨1/2, 1/4, 3/4⟩]] := validImage_singleton
    ⟨by norm_num, by norm_num, by norm_num, by norm_num, by norm_num,
      by norm_num⟩
  exact ⟨hv, apply_adjustments_identity_at_zero _ hv⟩

/-- C4: apply_adjustments is a pure function of its input — in this
functional model it cannot mutate its argument, matching the source,
which only rebinds locals and never writes the input array in place —
and the returned buffer has the same height and the same width in every
row as the input. -/
theorem apply_adjustments_preserves_dims (img : Image) (em sat vib : ℚ) :
    (apply_adjustments img em sat vib).length = img.length ∧
    (apply_adjustments img em sat vib).map List.length
      = img.map List.length := by
  unfold apply_adjustments
  refine ⟨List.length_map _ _, ?_⟩
  rw [List.map_map]
  simp [Function.comp, List.length_map]

end RIE

namespace RIE

/-! ### Metadata extraction (parse_camera_lens_exif, lines 28-58) -/

/-- Python strings are modelled as character lists, so that the parsing
in parse_camera_lens_exif is fully executable. -/
abbrev PyStr := List Char

/-- The EXIF metadata mapping: string tag names to string values
(read_exif_metadata builds a dict of str to str). -/
abbrev MetadataMap := List (PyStr × PyStr)

/-- Python dict.get(key, default). -/
def dictGet (d : MetadataMap) (k dflt : PyStr) : PyStr :=
  (d.lookup k).getD dflt

/-- Python str.strip(): drop leading and trailing whitespace. -/
def pyStrip (l : PyStr) : PyStr :=
  ((l.dropWhile fun c => c.isWhitespace).reverse.dropWhile
    fun c => c.isWhitespace).reverse

/-- Worker for Python str.split() with no separator: split on
whitespace runs, dropping empty pieces; acc holds the reversed current
token. -/
def splitWsAux : List Char → List Char → List PyStr
  | [], acc => if acc.isEmpty then [] else [acc.reverse]
  | c :: rest, acc =>
    if c.isWhitespace then
      if acc.isEmpty then splitWsAux rest []
      else acc.reverse :: splitWsAux rest []
    else splitWsAux rest (c :: acc)

/-- Python str.split() with no separator. -/
def pySplitWs (l : PyStr) : List PyStr := splitWsAux l []

/-- The digits of a numeral read as a natural number. -/
def digitsVal (l : List Char) : ℕ :=
  l.foldl (fun a ch => 10 * a + (ch.toNat - 48)) 0

def allDigits (l : List Char) : Bool := l.all fun ch => ch.isDigit

/-- Syntactic phase of Python float(str) on finite decimal literals:
optional surrounding whitespace, an optional sign, digits with at most
one decimal point (at least one digit overall), and an optional decimal
exponent.  Returns (sign, integer digits, fraction digits, fraction
length, exponent).  Python additionally accepts inf/nan spellings and
underscore digit grouping; those never arise in EXIF rational strings
and are modelled as parse failures, which the caller turns into its
default. -/
def parsePyFloatParts (cs0 : List Char) : Option (ℤ × ℕ × ℕ × ℕ × ℤ) :=
  let cs := pyStrip cs0
  let signMant : ℤ × List Char :=
    match cs with
    | '+' :: rest => (1, rest)
    | '-' :: rest => (-1, rest)
    | _ => (1, cs)
  let mant := signMant.2.takeWhile fun ch => !(ch == 'e' || ch == 'E')
  let expRest := signMant.2.dropWhile fun ch => !(ch == 'e' || ch == 'E')
  let intPart := mant.takeWhile fun ch => !(ch == '.')
  let fracPart := (mant.dropWhile fun ch => !(ch == '.')).drop 1
  if !(allDigits intPart && allDigits fracPart) then none
  else if intPart.isEmpty && fracPart.isEmpty then none
  else
    match expRest with
    | [] =>
      some (signMant.1, digitsVal intPart, digitsVal fracPart,
        fracPart.length, 0)
    | _ :: rest =>
      let se : ℤ × List Char :=
        match rest with
        | '+' :: r2 => (1, r2)
        | '-' :: r2 => (-1, r2)
        | _ => (1, rest)
      if allDigits se.2 && !se.2.isEmpty
      then some (signMant.1, digitsVal intPart, digitsVal fracPart,
        fracPart.length, (se.1 * digitsVal se.2 : ℤ))
      else none

/-- Model of Python float(str): the numeric value of the parsed
parts. -/
def parsePyFloat (cs : List Char) : Option ℚ :=
  (parsePyFloatParts cs).map fun q =>
    (q.1 : ℚ) * ((q.2.1 : ℚ) + (q.2.2.1 : ℚ) / 10 ^ q.2.2.2.1)
      * (10 : ℚ) ^ q.2.2.2.2

/-- The camera/lens record built from EXIF (the CameraLensInfo of the
spec, with the field names of the source dictionary). -/
structure CameraLensInfo where
  camera_make : PyStr
  camera_model : PyStr
  lens_model : PyStr
  focal_length : ℚ
  f_number : ℚ
deriving DecidableEq

/-- parse_camera_lens_exif from src/ClassRawEdit.py lines 28-58: make,
model and lens model default to the empty string and are stripped; the
focal length string defaults to "50", its first whitespace token is
parsed as a float (the bare except turns an empty split, via the
IndexError of [0], or a parse failure into 50.0); the f-number string
defaults to "2.8" and is parsed whole, any failure giving 2.8. -/
def parse_camera_lens_exif (d : MetadataMap) : CameraLensInfo :=
  let focal_str := dictGet d "EXIF FocalLength".toList "50".toList
  let fnumber_str := dictGet d "EXIF FNumber".toList "2.8".toList
  { camera_make := pyStrip (dictGet d "Image Make".toList [])
    camera_model := pyStrip (dictGet d "Image Model".toList [])
    lens_model := pyStrip (dictGet d "EXIF LensModel".toList [])
    focal_length :=
      match (pySplitWs focal_str).head? with
      | none => 50
      | some tok => (parsePyFloat tok).getD 50
    f_number := (parsePyFloat fnumber_str).getD (14 / 5) }

end RIE

namespace RIE

theorem parsePyFloat_50 : parsePyFloat ['5', '0'] = some 50 := by
  rw [show parsePyFloat ['5', '0']
      = some ((1 : ℚ) * ((50 : ℚ) + (0 : ℚ) / 10 ^ (0 : ℕ))
          * (10 : ℚ) ^ (0 : ℤ)) from rfl]
  norm_num

theorem parsePyFloat_28 : parsePyFloat "2.8".toList = some (14 / 5) := by
  rw [show parsePyFloat "2.8".toList
      = some ((1 : ℚ) * ((2 : ℚ) + (8 : ℚ) / 10 ^ (1 : ℕ))
          * (10 : ℚ) ^ (0 : ℤ)) from rfl]
  norm_num

/-- C5: parse_camera_lens_exif is total and never fails: make, model
and lens model default to the empty string when their keys are missing;
the focal length defaults to 50.0 when its key is missing (the default
string "50" parses to 50) and is otherwise the leading
whitespace-delimited token of the tag value parsed as a float, with
50.0 on parse failure; the f-number defaults to 2.8 when its key is
missing and is otherwise the whole tag value parsed as a float, with
2.8 on failure.  In particular a map missing both numeric keys yields
focal length 50.0 and f-number 2.8 (see the witness). -/
theorem parse_camera_lens_exif_defaults (d : MetadataMap) :
    (d.lookup "Image Make".toList = none →
      (parse_camera_lens_exif d).camera_make = []) ∧
    (d.lookup "Image Model".toList = none →
      (parse_camera_lens_exif d).camera_model = []) ∧
    (d.lookup "EXIF LensModel".toList = none →
      (parse_camera_lens_exif d).lens_model = []) ∧
    (d.lookup "EXIF FocalLength".toList = none →
      (parse_camera_lens_exif d).focal_length = 50) ∧
    (d.lookup "EXIF FNumber".toList = none →
      (parse_camera_lens_exif d).f_number = 14 / 5) ∧
    (∀ v, d.lookup "EXIF FocalLength".toList = some v →
      (parse_camera_lens_exif d).focal_length
        = (match (pySplitWs v).head? with
           | none => 50
           | some tok => (parsePyFloat tok).getD 50)) ∧
    (∀ v, d.lookup "EXIF FNumber".toList = some v →
      (parse_camera_lens_exif d).f_number = (parsePyFloat v).getD (14 / 5)) := by
  refine ⟨fun h => ?_, fun h => ?_, fun h => ?_, fun h => ?_, fun h => ?_,
    fun v h => ?_, fun v h => ?_⟩
  · show pyStrip ((d.lookup "Image Make".toList).getD []) = []
    rw [h]
    rfl
  · show pyStrip ((d.lookup "Image Model".toList).getD []) = []
    rw [h]
    rfl
  · show pyStrip ((d.lookup "EXIF LensModel".toList).getD []) = []
    rw [h]
    rfl
  · show ((match (pySplitWs
        ((d.lookup "EXIF FocalLength".toList).getD "50".toList)).head? with
      | none => 50
      | some tok => (parsePyFloat tok).getD 50) : ℚ) = 50
    rw [h]
    show (parsePyFloat ['5', '0']).getD 50 = 50
    rw [parsePyFloat_50]
    rfl
  · show (parsePyFloat
        ((d.lookup "EXIF FNumber".toList).getD "2.8".toList)).getD (14 / 5)
      = 14 / 5
    rw [h]
    show (parsePyFloat "2.8".toList).getD (14 / 5) = 14 / 5
    rw [parsePyFloat_28]
    rfl
  · show ((match (pySplitWs
        ((d.lookup "EXIF FocalLength".toList).getD "50".toList)).head? with
      | none => 50
      | some tok => (parsePyFloat tok).getD 50) : ℚ)
      = (match (pySplitWs v).head? with
         | none => 50
         | some tok => (parsePyFloat tok).getD 50)
    rw [h]
    rfl
  · show (parsePyFloat
        ((d.lookup "EXIF FNumber".toList).getD "2.8".toList)).getD (14 / 5)
      = (parsePyFloat v).getD (14 / 5)
    rw [h]
    rfl

end RIE

namespace RIE

/-- Witness for C5: the empty metadata map yields the spec scenario
focal length 50.0 and f-number 2.8 with empty make; a map carrying
"56.0 mm" and "4.0" parses the leading token 56.0 and the value 4.0. -/
theorem parse_camera_lens_exif_defaults_witness :
    (parse_camera_lens_exif []).focal_length = 50 ∧
    (parse_camera_lens_exif []).f_number = 14 / 5 ∧
    (parse_camera_lens_exif []).camera_make = [] ∧
    (parse_camera_lens_exif
        [("EXIF FocalLength".toList, "56.0 mm".toList),
         ("EXIF FNumber".toList, "4.0".toList)]).focal_length = 56 := by
  refine ⟨(parse_camera_lens_exif_defaults []).2.2.2.1 rfl,
    (parse_camera_lens_exif_defaults []).2.2.2.2.1 rfl,
    (parse_camera_lens_exif_defaults []).1 rfl, ?_⟩
  have h := (parse_camera_lens_exif_defaults
    [("EXIF FocalLength".toList, "56.0 mm".toList),
     ("EXIF FNumber".toList, "4.0".toList)]).2.2.2.2.2.1
    "56.0 mm".toList rfl
  rw [h]
  show (parsePyFloat "56.0".toList).getD 50 = 56
  rw [show parsePyFloat "56.0".toList
      = some ((1 : ℚ) * ((56 : ℚ) + (0 : ℚ) / 10 ^ (1 : ℕ))
          * (10 : ℚ) ^ (0 : ℤ)) from rfl]
  norm_num

end RIE

namespace RIE

/-! ### Loading (RawEditor.load_raw, lines 205-242) -/

/-- The shape of the decoded numpy raster (h, w, c).  The load path of
the source branches only on shape, never on sample values: the shape
unpacking, cv2.resize and the cvtColor inside the initial preview are
what can raise, and the surrounding try/except reports the failure (the
DecodeError of the spec). -/
structure Raster where
  h : ℕ
  w : ℕ
  c : ℕ
deriving DecidableEq

/-- The exception site inside the try block of load_raw. -/
inductive DecodeError
  | resizeFailed
  | cvtColorFailed
deriving DecidableEq

/-- The session state load_raw establishes: the full raster and the
derived preview raster. -/
structure LoadedShapes where
  fullRes : Raster
  preview : Raster
deriving DecidableEq

/-- load_raw after the external decode (lines 216-240): the full image
keeps the raster shape; the preview dimensions are
int(w * 0.25) x int(h * 0.25) (preview_scale = 0.25, so floor division
by 4 on the exact naturals); cv2.resize raises when the source or the
target size is empty; update_preview then runs apply_adjustments, whose
first cvtColor raises when the image does not have at least 3 channels.
Every exception is caught by the try/except of load_raw, which keeps
the previous session and reports the error. -/
def load_raw_model (raster : Raster) : Except DecodeError LoadedShapes :=
  let pw := raster.w / 4
  let ph := raster.h / 4
  if raster.h = 0 ∨ raster.w = 0 ∨ pw = 0 ∨ ph = 0 then
    .error .resizeFailed
  else if raster.c < 3 then .error .cvtColorFailed
  else .ok ⟨raster, ⟨ph, pw, raster.c⟩⟩

/-- C6: load fails with a DecodeError whenever the input raster is
empty or has fewer than 3 channels. -/
theorem load_raw_model_fails (raster : Raster)
    (h : raster.h = 0 ∨ raster.w = 0 ∨ raster.c < 3) :
    ∃ e, load_raw_model raster = .error e := by
  unfold load_raw_model
  rcases h with h | h | h
  · exact ⟨.resizeFailed, by rw [if_pos (Or.inl h)]⟩
  · exact ⟨.resizeFailed, by rw [if_pos (Or.inr (Or.inl h))]⟩
  · by_cases hempty : raster.h = 0 ∨ raster.w = 0 ∨ raster.w / 4 = 0
      ∨ raster.h / 4 = 0
    · exact ⟨.resizeFailed, by rw [if_pos hempty]⟩
    · exact ⟨.cvtColorFailed, by rw [if_neg hempty, if_pos h]⟩

/-- Witness for C6: an empty raster and a 2-channel raster each fail. -/
theorem load_raw_model_fails_witness :
    (∃ e, load_raw_model ⟨0, 4000, 3⟩ = .error e) ∧
    (∃ e, load_raw_model ⟨3000, 4000, 2⟩ = .error e) :=
  ⟨load_raw_model_fails ⟨0, 4000, 3⟩ (Or.inl rfl),
   load_raw_model_fails ⟨3000, 4000, 2⟩ (Or.inr (Or.inr (by norm_num)))⟩

end RIE

namespace RIE

/-! ### The edit session controller (RawEditor, lines 88-351)

The GUI object is modelled by the state its slots read and write: the
two buffers, the current slider parameters, the pending single-shot
debounce deadline, and the displayed preview pixmap.  Time is a natural
number of milliseconds.  The commits field is a history variable
recording the instants at which process_full_res ran on a loaded image,
used only to state the temporal claims. -/

/-- The three slider parameters as apply_adjustments consumes them
(exposure through its multiplier 2^exposure, see the module header). -/
structure Params where
  exposure_mult : ℚ
  saturation : ℚ
  vibrance : ℚ
deriving DecidableEq

/-- The mutable state of RawEditor. -/
structure Editor where
  full_image : Option Image
  preview_image : Option Image
  params : Params
  pending : Option ℕ
  commits : List ℕ
  display : Option Image
deriving DecidableEq

/-- RawEditor.process_full_res (lines 325-351): return immediately when
no image is loaded; otherwise replace the stored full-res image by
apply_adjustments of the stored (possibly already adjusted) full-res
image under the current slider values.  The commit instant is recorded
in the history variable. -/
def process_full_res (now : ℕ) (st : Editor) : Editor :=
  match st.full_image with
  | none => st
  | some img =>
    { st with
      full_image := some (apply_adjustments img st.params.exposure_mult
        st.params.saturation st.params.vibrance)
      commits := st.commits ++ [now] }

/-- RawEditor.update_preview (lines 296-323): return immediately when
no preview is loaded; otherwise render apply_adjustments of the stored
preview under the current slider values into the preview label.  The
stored preview buffer itself is never written. -/
def update_preview (st : Editor) : Editor :=
  match st.preview_image with
  | none => st
  | some img =>
    { st with
      display := some (apply_adjustments img st.params.exposure_mult
        st.params.saturation st.params.vibrance) }

/-- The valueChanged slots (on_exposure_changed, on_saturation_changed,
on_vibrance_changed, lines 268-282): update the parameter set and
recompute the preview.  The debounce timer is not touched. -/
def on_value_changed (p : Params) (st : Editor) : Editor :=
  update_preview { st with params := p }

/-- RawEditor.on_slider_released (lines 284-290): QTimer.start() on the
single-shot 300 ms timer, which (re)starts its countdown whether or not
it was already running. -/
def on_slider_released (now : ℕ) (st : Editor) : Editor :=
  { st with pending := some (now + 300) }

/-- RawEditor.export_as_jpeg (lines 245-259): return immediately when
no image is loaded; otherwise run process_full_res synchronously, then
ask for a save path (savePath none models a cancelled dialog) and hand
the committed buffer to cv2.imwrite, whose success flag (writeOk, an
external input) the source ignores.  The returned Bool reports whether
a file was written; the session state does not depend on the dialog or
on the write outcome. -/
def export_as_jpeg (now : ℕ) (savePath : Option PyStr) (writeOk : Bool)
    (st : Editor) : Editor × Bool :=
  match st.full_image with
  | none => (st, false)
  | some _ =>
    let st2 := process_full_res now st
    match savePath with
    | none => (st2, false)
    | some _ => (st2, writeOk)

/-- A user interaction event: a slider value change (carrying the new
parameter snapshot) or a slider release. -/
inductive Event
  | valueChanged (p : Params)
  | sliderReleased
deriving DecidableEq

def handle_event (t : ℕ) (e : Event) (st : Editor) : Editor :=
  match e with
  | .valueChanged p => on_value_changed p st
  | .sliderReleased => on_slider_released t st

/-- The single-shot timer fires once at its deadline if the deadline
has arrived by time now. -/
def fire_timer_upto (now : ℕ) (st : Editor) : Editor :=
  match st.pending with
  | none => st
  | some t =>
    if t ≤ now then { process_full_res t st with pending := none } else st

/-- Run a trace of timestamped events (times nondecreasing): before
each event the timer fires if its deadline has passed, then the event
is handled; after the last event all remaining time passes, so a still
pending timer fires at its deadline. -/
def run_events : List (ℕ × Event) → Editor → Editor
  | [], st =>
    (match st.pending with
     | none => st
     | some t => { process_full_res t st with pending := none })
  | (t, e) :: rest, st =>
    run_events rest (handle_event t e (fire_timer_upto t st))

end RIE

namespace RIE

/-- C7 counterexample: with an image loaded, a release at 0 ms followed
by parameter changes at 100 ms and 200 ms produces exactly one full-res
commit at 300 ms, timed from the release: the later parameter changes
neither start nor restart the countdown, whereas the claim as stated
predicts a single commit at 500 ms, timed from the last change. -/
theorem debounce_not_restarted_by_value_change :
    (run_events [(0, Event.sliderReleased),
        (100, Event.valueChanged ⟨2, 0, 0⟩),
        (200, Event.valueChanged ⟨2, 1/2, 0⟩)]
      { full_image := some [[⟨1/2, 1/2, 1/2⟩]],
        preview_image := some [[⟨1/2, 1/2, 1/2⟩]],
        params := ⟨1, 0, 0⟩, pending := none, commits := [],
        display := none }).commits = [300] ∧ (300 : ℕ) ≠ 200 + 300 := by
  constructor
  · simp [run_events, handle_event, fire_timer_upto, on_slider_released,
      on_value_changed, update_preview, process_full_res]
  · norm_num

theorem run_releases_aux (ts : List ℕ) :
    ∀ (prev : ℕ) (st : Editor) (img : Image),
      st.pending = some (prev + 300) → st.full_image = some img →
      List.Chain' (fun a b => a < b ∧ b < a + 300) (prev :: ts) →
      (run_events (ts.map fun t => (t, Event.sliderReleased)) st).commits
        = st.commits ++ [ts.getLastD prev + 300] := by
  induction ts with
  | nil =>
    intro prev st img hp hf _
    show (match st.pending with
      | none => st
      | some t => { process_full_res t st with pending := none }).commits
      = _
    rw [hp]
    show (process_full_res (prev + 300) st).commits = _
    unfold process_full_res
    rw [hf]
    rfl
  | cons t ts ih =>
    intro prev st img hp hf hch
    obtain ⟨⟨h1, h2⟩, hch2⟩ := List.chain'_cons.mp hch
    rw [List.map_cons]
    show (run_events (ts.map fun t => (t, Event.sliderReleased))
      (handle_event t Event.sliderReleased (fire_timer_upto t st))).commits
      = _
    have hfire : fire_timer_upto t st = st := by
      unfold fire_timer_upto
      rw [hp]
      show (if prev + 300 ≤ t
        then { process_full_res (prev + 300) st with pending := none }
        else st) = st
      rw [if_neg (by omega : ¬ prev + 300 ≤ t)]
    rw [hfire]
    have hres := ih t (handle_event t Event.sliderReleased st) img rfl hf
      hch2
    rw [hres, List.getLastD_cons]
    rfl

/-- C7 amended: every slider release (re)starts the 300 ms countdown,
and the commit fires only when the countdown elapses with no further
release; so N rapid releases, each within 300 ms of the previous one,
trigger exactly one full-res commit, timed from the last release.
Parameter changes alone neither start nor restart the countdown (see
the counterexample). -/
theorem debounce_coalesces_releases (st : Editor) (img : Image) (t0 : ℕ)
    (ts : List ℕ) (hpend : st.pending = none)
    (hfull : st.full_image = some img)
    (hch : List.Chain' (fun a b => a < b ∧ b < a + 300) (t0 :: ts)) :
    (run_events ((t0 :: ts).map fun t => (t, Event.sliderReleased))
        st).commits
      = st.commits ++ [ts.getLastD t0 + 300] := by
  rw [List.map_cons]
  show (run_events (ts.map fun t => (t, Event.sliderReleased))
    (handle_event t0 Event.sliderReleased (fire_timer_upto t0 st))).commits
    = _
  have hfire : fire_timer_upto t0 st = st := by
    unfold fire_timer_upto
    rw [hpend]
  rw [hfire]
  exact run_releases_aux ts t0 _ img rfl hfull hch

/-- Witness for the amended C7: three rapid releases at 0, 100 and
250 ms with an image loaded yield exactly one commit, at 550 ms. -/
theorem debounce_coalesces_releases_witness :
    (run_events [(0, Event.sliderReleased), (100, Event.sliderReleased),
        (250, Event.sliderReleased)]
      { full_image := some [[⟨1/2, 1/2, 1/2⟩]],
        preview_image := some [[⟨1/2, 1/2, 1/2⟩]],
        params := ⟨1, 0, 0⟩, pending := none, commits := [],
        display := none }).commits = [550] := by
  have h := debounce_coalesces_releases
    { full_image := some [[⟨1/2, 1/2, 1/2⟩]],
      preview_image := some [[⟨1/2, 1/2, 1/2⟩]],
      params := ⟨1, 0, 0⟩, pending := none, commits := [],
      display := none }
    [[⟨1/2, 1/2, 1/2⟩]] 0 [100, 250] rfl rfl
    (by norm_num [List.chain'_cons])
  simpa using h

end RIE

namespace RIE

/-- C8 counterexample: a failed export does change the in-memory
session: export runs the destructive full-res commit before attempting
the write, so with exposure multiplier 2 the stored gray pixel 1/4
becomes 1/2 even though the write failed. -/
theorem export_failure_changes_session :
    ((export_as_jpeg 0 (some "out.jpg".toList) false
      { full_image := some [[⟨1/4, 1/4, 1/4⟩]],
        preview_image := some [[⟨1/4, 1/4, 1/4⟩]],
        params := ⟨2, 0, 0⟩, pending := none, commits := [],
        display := none }).1).full_image
      ≠ some [[⟨1/4, 1/4, 1/4⟩]] := by
  have heval : ((export_as_jpeg 0 (some "out.jpg".toList) false
      { full_image := some [[⟨1/4, 1/4, 1/4⟩]],
        preview_image := some [[⟨1/4, 1/4, 1/4⟩]],
        params := ⟨2, 0, 0⟩, pending := none, commits := [],
        display := none }).1).full_image
      = some [[⟨1/2, 1/2, 1/2⟩]] := by
    show some (apply_adjustments [[⟨1/4, 1/4, 1/4⟩]] 2 0 0)
      = some [[⟨1/2, 1/2, 1/2⟩]]
    norm_num [apply_adjustments, applyPixel, cvtBGR2HSV, cvtRGB2BGR,
      cvtBGR2RGB, rgb2hsvCore, hue0Of, satOf, vMax, vMin, cvtHSV2BGR,
      hueSector, wrap6, bgrOfSector, clamp01]
  rw [heval]
  intro hc
  rw [Option.some.injEq] at hc
  norm_num [List.cons.injEq, Pixel.mk.injEq] at hc

/-- C8 amended: the write outcome never influences the session: the
state after a failed export equals the state after a successful one,
and both equal the state left by the synchronous full-res commit that
export performs before writing (or the unchanged state when nothing is
loaded).  The failure is local in that sense only; the commit itself
has already replaced the full-res buffer. -/
theorem export_failure_leaves_committed_state (now : ℕ)
    (savePath : Option PyStr) (writeOk writeOk2 : Bool) (st : Editor) :
    (export_as_jpeg now savePath writeOk st).1
      = (export_as_jpeg now savePath writeOk2 st).1 ∧
    (export_as_jpeg now savePath writeOk st).1
      = (if st.full_image = none then st else process_full_res now st) := by
  unfold export_as_jpeg
  rcases hfull : st.full_image with _ | img
  · simp [hfull]
  · rcases savePath with _ | p <;> simp [hfull]

end RIE

namespace RIE

/-- C9: process_full_res replaces the stored full-res buffer with
apply_adjustments of the currently stored (possibly already adjusted)
buffer, not of the originally decoded pixels; consequently two
successive commits with saturation 1/2 on the pixel (1/2, 1/4, 1/4)
give (1/2, 0, 0), different from the single-commit result
(1/2, 1/8, 1/8): repeated commits compound. -/
theorem process_full_res_compounds :
    (∀ (now : ℕ) (st : Editor) (img : Image), st.full_image = some img →
      (process_full_res now st).full_image
        = some (apply_adjustments img st.params.exposure_mult
            st.params.saturation st.params.vibrance)) ∧
    ((process_full_res 600 (process_full_res 300
        { full_image := some [[⟨1/2, 1/4, 1/4⟩]],
          preview_image := none, params := ⟨1, 1/2, 0⟩,
          pending := none, commits := [], display := none })).full_image
      ≠ (process_full_res 300
        { full_image := some [[⟨1/2, 1/4, 1/4⟩]],
          preview_image := none, params := ⟨1, 1/2, 0⟩,
          pending := none, commits := [], display := none }).full_image) := by
  constructor
  · intro now st img h
    unfold process_full_res
    rw [h]
  · have h1 : (process_full_res 300
        { full_image := some [[⟨1/2, 1/4, 1/4⟩]],
          preview_image := none, params := ⟨1, 1/2, 0⟩,
          pending := none, commits := [], display := none }).full_image
        = some [[⟨1/2, 1/8, 1/8⟩]] := by
      show some (apply_adjustments [[⟨1/2, 1/4, 1/4⟩]] 1 (1/2) 0)
        = some [[⟨1/2, 1/8, 1/8⟩]]
      norm_num [apply_adjustments, applyPixel, cvtBGR2HSV, cvtRGB2BGR,
        cvtBGR2RGB, rgb2hsvCore, hue0Of, satOf, vMax, vMin, cvtHSV2BGR,
        hueSector, wrap6, bgrOfSector, clamp01]
    have h2 : (process_full_res 600 (process_full_res 300
        { full_image := some [[⟨1/2, 1/4, 1/4⟩]],
          preview_image := none, params := ⟨1, 1/2, 0⟩,
          pending := none, commits := [], display := none })).full_image
        = some [[⟨1/2, 0, 0⟩]] := by
      show some (apply_adjustments (apply_adjustments [[⟨1/2, 1/4, 1/4⟩]]
        1 (1/2) 0) 1 (1/2) 0) = some [[⟨1/2, 0, 0⟩]]
      norm_num [apply_adjustments, applyPixel, cvtBGR2HSV, cvtRGB2BGR,
        cvtBGR2RGB, rgb2hsvCore, hue0Of, satOf, vMax, vMin, cvtHSV2BGR,
        hueSector, wrap6, bgrOfSector, clamp01]
    rw [h1, h2]
    intro hc
    rw [Option.some.injEq] at hc
    norm_num [List.cons.injEq, Pixel.mk.injEq] at hc

/-- Witness for C9 at a concrete state. -/
theorem process_full_res_compounds_witness :
    (process_full_res 0
        { full_image := some [[⟨1/2, 1/2, 1/2⟩]], preview_image := none,
          params := ⟨1, 0, 0⟩, pending := none, commits := [],
          display := none }).full_image
      = some (apply_adjustments [[⟨1/2, 1/2, 1/2⟩]] 1 0 0) :=
  process_full_res_compounds.1 0 _ _ rfl

/-- C10: when no image is loaded (the stored full-res and preview
buffers are absent), export and full-res commit return immediately
without touching any state, and likewise preview recompute when the
preview buffer is absent; being total functions they raise nothing. -/
theorem noop_when_not_loaded (st : Editor) (now : ℕ)
    (savePath : Option PyStr) (writeOk : Bool) :
    (st.full_image = none →
      export_as_jpeg now savePath writeOk st = (st, false) ∧
      process_full_res now st = st) ∧
    (st.preview_image = none → update_preview st = st) := by
  constructor
  · intro h
    constructor
    · unfold export_as_jpeg
      rw [h]
    · unfold process_full_res
      rw [h]
  · intro h
    unfold update_preview
    rw [h]

/-- Witness for C10 on the freshly constructed editor state. -/
theorem noop_when_not_loaded_witness :
    (export_as_jpeg 5 (some "out.jpg".toList) true
        { full_image := none, preview_image := none, params := ⟨1, 0, 0⟩,
          pending := none, commits := [], display := none }).1
      = { full_image := none, preview_image := none, params := ⟨1, 0, 0⟩,
          pending := none, commits := [], display := none } ∧
    process_full_res 5
        { full_image := none, preview_image := none, params := ⟨1, 0, 0⟩,
          pending := none, commits := [], display := none }
      = { full_image := none, preview_image := none, params := ⟨1, 0, 0⟩,
          pending := none, commits := [], display := none } ∧
    update_preview
        { full_image := none, preview_image := none, params := ⟨1, 0, 0⟩,
          pending := none, commits := [], display := none }
      = { full_image := none, preview_image := none, params := ⟨1, 0, 0⟩,
          pending := none, commits := [], display := none } :=
  ⟨congrArg Prod.fst
    (((noop_when_not_loaded _ 5 (some "out.jpg".toList) true).1 rfl).1),
   ((noop_when_not_loaded _ 5 (some "out.jpg".toList) true).1 rfl).2,
   (noop_when_not_loaded _ 5 (some "out.jpg".toList) true).2 rfl⟩

end RIE
